import Mathlib

/-!
Verification of the schematic-distiller pipeline
(`kicad_sch_api/distill/distiller.py` and `kicad_sch_api/distill/model.py`).

Conventions of the shallow embedding:
* Python floats are modelled as real numbers (`ℝ`); `math.hypot` is the exact
  Euclidean norm.
* Python dicts built by repeated assignment are modelled as lookup functions
  (`dictInsert`), so later writes win, and `dict.get` with no default is
  `Option`-valued.
* Python truthiness on optional strings (`None` and `""` are falsy) is `strTruthy`.
* The connectivity analyzer (`core/connectivity`), the geometry resolver
  (`core/pin_utils`), the schematic value types (`core/types`) and the symbol
  library cache (`library/cache`) are outside the distill sources; where a
  definition depends on them it is modelled from the spec and says so in its
  doc comment.
-/

/-- Python truthiness of an optional string: `None` and `""` are falsy. -/
def strTruthy : Option String → Bool
  | none => false
  | some s => !(s == "")

/-- Python `x or alt` on an optional string (`None` and `""` fall through to `alt`). -/
def orStr (x : Option String) (alt : String) : String :=
  match x with
  | none => alt
  | some s => if s == "" then alt else s

/-- Does the second list occur as a leading block of the first? -/
def charStarts : List Char → List Char → Bool
  | _, [] => true
  | [], _ :: _ => false
  | c :: cs, p :: ps => c == p && charStarts cs ps

/-- Does `pat` occur as a contiguous block of `s`? -/
def charBlockIn : List Char → List Char → Bool
  | [], pat => pat.isEmpty
  | c :: cs, pat => charStarts (c :: cs) pat || charBlockIn cs pat

/-- Substring test: Python `pat in s`. -/
def strContains (s pat : String) : Bool :=
  charBlockIn s.toList pat.toList

/-- Python `s.lower()` (ASCII, as the source uses it on references and lib ids). -/
def strLower (s : String) : String :=
  ⟨s.toList.map Char.toLower⟩

/-- Python `s.upper()` (ASCII, as the source uses it on references and lib ids). -/
def strUpper (s : String) : String :=
  ⟨s.toList.map Char.toUpper⟩

/-- Python `s.startswith(pre)`. -/
def strStarts (s pre : String) : Bool :=
  charStarts s.toList pre.toList

/-- A pin occurrence inside a `Net`, as produced by the connectivity analyzer
(`core/connectivity`, outside src). Per the spec a net's pins are
(reference, pin number, sheet-path) tuples. -/
structure PinConnection where
  reference : String
  pin_number : String
  sheet_path : String
  deriving DecidableEq, Repr

/-- A net as consumed by the distiller: an optional display name (the analyzer
may leave it `None` or empty) plus its pin occurrences. -/
structure Net where
  name : Option String
  pins : List PinConnection
  deriving DecidableEq, Repr

/-- The net display name used twice in distiller.py (lines 63 and 82):
`net.name or f"Net-{idx+1}"`, where `idx` is the net's position in the
analyzer's full net list. -/
def net_display_name (idx : Nat) (net : Net) : String :=
  orStr net.name ("Net-" ++ toString (idx + 1))

/-- A Python dict assignment `m[k] = v` on a string-pair-keyed dict, modelled as
a lookup function: the new write shadows older ones. -/
def dictInsert (m : String × String → Option String) (k : String × String) (v : String) :
    String × String → Option String :=
  fun k' => if k' = k then some v else m k'

/-- Inner loop of `_build_pin_net_map`: `for pin in net.pins: mapping[(pin.reference,
pin.pin_number)] = name`. -/
def writeNetPins (m : String × String → Option String) (idx : Nat) (net : Net) :
    String × String → Option String :=
  net.pins.foldl (fun m pin => dictInsert m (pin.reference, pin.pin_number) (net_display_name idx net)) m

/-- Outer loop of `_build_pin_net_map`: `for idx, net in enumerate(nets)`. -/
def _build_pin_net_map_aux (idx : Nat) (nets : List Net) (m : String × String → Option String) :
    String × String → Option String :=
  match nets with
  | [] => m
  | net :: rest => _build_pin_net_map_aux (idx + 1) rest (writeNetPins m idx net)

/-- distiller.py `_build_pin_net_map`: builds the (reference, pin number) → net name
lookup from the analyzer's net list, starting from the empty dict. -/
def _build_pin_net_map (nets : List Net) : String × String → Option String :=
  _build_pin_net_map_aux 0 nets (fun _ => none)

/-- Does `net` contain an occurrence of the (reference, pin number) pair? -/
def netHasPin (net : Net) (ref pn : String) : Bool :=
  net.pins.any (fun pc => pc.reference == ref && pc.pin_number == pn)

/-- The indexed nets of the analyzer's list that contain the given
(reference, pin number) pair, in net-list order. -/
def netsContaining (nets : List Net) (ref pn : String) : List (Nat × Net) :=
  (nets.enum).filter (fun p => netHasPin p.2 ref pn)

/-- `netsContaining`, generalised to an enumeration starting at `idx` (proof
helper mirroring `_build_pin_net_map_aux`). -/
def netsContainingFrom (idx : Nat) (nets : List Net) (ref pn : String) : List (Nat × Net) :=
  (nets.enumFrom idx).filter (fun p => netHasPin p.2 ref pn)

/-- Replace every pin occurrence's sheet path by `f` applied to it (used to state
that the pin map drops the sheet-path component). -/
def relabelSheets (f : PinConnection → String) (nets : List Net) : List Net :=
  nets.map (fun n => { n with pins := n.pins.map (fun pc => { pc with sheet_path := f pc }) })

/-- A pin of a schematic symbol. Modelled from the spec (§3): the concrete class
lives in `core/types`, outside the distill sources. `position` is the absolute
position already produced by the external geometry resolver (§4.1). -/
structure SymPin where
  number : String
  name : Option String
  position : ℝ × ℝ

/-- A schematic component. Modelled from the spec (§3): the concrete
`SchematicSymbol` class lives in `core/types`, outside the distill sources;
only the fields the distiller reads are modelled. -/
structure SchematicSymbol where
  reference : String
  lib_id : String
  value : String
  footprint : Option String
  properties : List (String × Option String)
  pins : List SymPin
  position : ℝ × ℝ

/-- A loaded schematic sheet, as the distiller consumes it. Modelled from the
spec (§6): only the component list is read by the distiller. -/
structure Schematic where
  components : List SchematicSymbol

/-- Modelled from the spec: `core.pin_utils.list_component_pins` (outside src)
yields each pin's number paired with its absolute resolved position (§4.1/§4.4). -/
def list_component_pins (c : SchematicSymbol) : List (String × (ℝ × ℝ)) :=
  c.pins.map (fun p => (p.number, p.position))

/-- model.py `DistilledPin`. -/
structure DistilledPin where
  number : String
  net : Option String
  position : ℝ × ℝ
  name : Option String

/-- model.py `DistilledComponent`. Note: distiller.py passes a `sheet_path`
keyword which the dataclass in model.py does not declare; the field is included
here since the distiller and its tests rely on it. -/
structure DistilledComponent where
  reference : String
  lib_id : String
  value : String
  position : ℝ × ℝ
  footprint : Option String
  properties : List (String × String)
  pins : List DistilledPin
  category : String
  sheet_path : Option String

/-- model.py `DistilledNet`: insertion-ordered reference → pin-number-list map. -/
structure DistilledNet where
  name : String
  pins : List (String × List String)
  deriving DecidableEq, Repr

/-- model.py `DistilledNet.add_pin`: `self.pins.setdefault(reference, []).append(...)`. -/
def DistilledNet.addPin (m : List (String × List String)) (ref num : String) :
    List (String × List String) :=
  if m.any (fun p => p.1 == ref) then
    m.map (fun p => if p.1 == ref then (p.1, p.2 ++ [num]) else p)
  else m ++ [(ref, [num])]

/-- model.py `ProximityEdge`. -/
structure ProximityEdge where
  ref_a : String
  ref_b : String
  distance_mm : ℝ
  score : ℝ
  category_a : String
  category_b : String
  weight : ℝ

/-- model.py `DistilledSchematic`; the nets dict is kept as its insertion-ordered
(name, net) entry list. -/
structure DistilledSchematic where
  components : List DistilledComponent
  nets : List (String × DistilledNet)
  proximities : List ProximityEdge

/-- distiller.py `_classify_component`: each category check fires on reference
prefix OR library-id substring, tried in a fixed order. -/
def _classify_component (c : SchematicSymbol) : String :=
  let ref := strUpper c.reference
  let lib := strLower c.lib_id
  if strStarts ref "C" || strContains lib "cap" then "capacitor"
  else if strStarts ref "U" || strContains lib "mcu" || strContains lib "ic" then "ic"
  else if strStarts ref "R" || strContains lib "res" then "resistor"
  else if strStarts ref "L" || strContains lib "ind" then "inductor"
  else if strStarts ref "Q" || strContains lib "transistor" then "transistor"
  else "other"

/-- distiller.py `_is_u_ref`. -/
def _is_u_ref (reference : String) : Bool :=
  strStarts (strUpper reference) "U"

/-- distiller.py `_is_real_symbol`: filter applied to schematic symbols before
distillation. -/
def _is_real_symbol (c : SchematicSymbol) : Bool :=
  let ref := strUpper c.reference
  if strStarts ref "#" then false
  else if strStarts ref "NET-" then false
  else
    let lib := strLower c.lib_id
    if strStarts lib "power:" then false
    else if strStarts lib "net:" then false
    else true

/-- distiller.py `_is_real_component`: same filter on distilled components,
re-applied inside the proximity loop. -/
def _is_real_component (c : DistilledComponent) : Bool :=
  let ref := strUpper c.reference
  if strStarts ref "#" then false
  else if strStarts ref "NET-" then false
  else
    let lib := strLower c.lib_id
    if strStarts lib "power:" then false
    else if strStarts lib "net:" then false
    else true

/-- distiller.py `_is_ic_cap_pair`: Python compares the category set with
`{"ic", "capacitor"}`. -/
def _is_ic_cap_pair (a b : DistilledComponent) : Bool :=
  (a.category == "ic" && b.category == "capacitor") ||
    (a.category == "capacitor" && b.category == "ic")

/-- distiller.py `_pair_weight`: two dict lookups (the second one, when it hits,
shadows the first) followed by the U-reference decoupling boost. -/
noncomputable def _pair_weight (comp_a comp_b : DistilledComponent)
    (weight_multipliers : String × String → Option ℝ) : ℝ :=
  let w1 := (weight_multipliers (comp_a.category, comp_b.category)).getD 1.0
  let weight := (weight_multipliers (comp_b.category, comp_a.category)).getD w1
  if _is_ic_cap_pair comp_a comp_b && (_is_u_ref comp_a.reference || _is_u_ref comp_b.reference) then
    weight * 3.0
  else weight

/-- distiller.py `DEFAULT_WEIGHT_MULTIPLIERS`. -/
noncomputable def DEFAULT_WEIGHT_MULTIPLIERS : String × String → Option ℝ :=
  fun p =>
    if p = ("capacitor", "ic") then some 2.0
    else if p = ("ic", "capacitor") then some 2.0
    else if p = ("capacitor", "other") then some 1.2
    else if p = ("other", "capacitor") then some 1.2
    else none

/-- distiller.py `_distance`: `math.hypot` of the coordinate differences. -/
noncomputable def _distance (p1 p2 : ℝ × ℝ) : ℝ :=
  Real.sqrt ((p1.1 - p2.1) ^ 2 + (p1.2 - p2.2) ^ 2)

/-- One iteration of the inner proximity loop body: `None` models `continue`. -/
noncomputable def _edge_for (comp_a comp_b : DistilledComponent) (radius_mm : ℝ)
    (weight_multipliers : String × String → Option ℝ) : Option ProximityEdge :=
  if _is_real_component comp_a && _is_real_component comp_b then
    let dist := _distance comp_a.position comp_b.position
    let effective_radius := if _is_ic_cap_pair comp_a comp_b then radius_mm * 1.5 else radius_mm
    if dist > effective_radius then none
    else
      let weight := _pair_weight comp_a comp_b weight_multipliers
      let base := max 0 ((radius_mm - dist) / radius_mm)
      some { ref_a := comp_a.reference
             ref_b := comp_b.reference
             distance_mm := dist
             score := base * weight
             category_a := comp_a.category
             category_b := comp_b.category
             weight := weight }
  else none

/-- The `for i, comp_a in enumerate(components): for comp_b in components[i+1:]`
double loop, as the ordered list of visited pairs. -/
def pairsAfter : List DistilledComponent → List (DistilledComponent × DistilledComponent)
  | [] => []
  | a :: rest => rest.map (fun b => (a, b)) ++ pairsAfter rest

/-- distiller.py `_compute_proximities`. -/
noncomputable def _compute_proximities (components : List DistilledComponent) (radius_mm : ℝ)
    (weight_multipliers : String × String → Option ℝ) : List ProximityEdge :=
  (pairsAfter components).filterMap (fun p => _edge_for p.1 p.2 radius_mm weight_multipliers)

/-- Pin-name resolution of `_distill_component` (`_resolve_pin_name`): the
schematic instance's own pin names win when truthy; the symbol-library cache is
an external collaborator (§6) modelled as the `libPinName` argument, with its
result subject to the same truthiness test. The instance-name dict
`{pin.number: pin.name for pin in component.pins}` keeps the last entry for a
duplicated number, hence the reversed search. -/
def _resolve_pin_name (c : SchematicSymbol) (libPinName : String → String → Option String)
    (pn : String) : Option String :=
  let libLookup :=
    match libPinName c.lib_id pn with
    | some s => if s == "" then none else some s
    | none => none
  match (c.pins.reverse.find? (fun p => p.number == pn)).bind (fun p => p.name) with
  | some s => if s == "" then libLookup else some s
  | none => libLookup

/-- Property filtering of `_distill_component`: drop `__sexp_`-prefixed keys and
`None` values (empty-string values are kept). -/
def filtered_properties (props : List (String × Option String)) : List (String × String) :=
  props.filterMap (fun kv =>
    if strStarts kv.1 "__sexp_" then none
    else
      match kv.2 with
      | none => none
      | some v => some (kv.1, v))

/-- distiller.py `_distill_component`. -/
def _distill_component (component : SchematicSymbol)
    (pin_to_net : String × String → Option String) (sheet_path : Option String)
    (libPinName : String → String → Option String) : DistilledComponent :=
  { reference := component.reference
    lib_id := component.lib_id
    value := component.value
    position := component.position
    footprint := component.footprint
    properties := filtered_properties component.properties
    pins := (list_component_pins component).map (fun p =>
      { number := p.1
        net := pin_to_net (component.reference, p.1)
        position := p.2
        name := _resolve_pin_name component libPinName p.1 })
    category := _classify_component component
    sheet_path := sheet_path }

/-- distiller.py `_distill_net`. -/
def _distill_net (net : Net) : DistilledNet :=
  { name := orStr net.name "unnamed"
    pins := net.pins.foldl (fun m pc => DistilledNet.addPin m pc.reference pc.pin_number) [] }

/-- The nets-dict comprehension of `distill_schematic` (distiller.py line 63):
`{net.name or f"Net-{idx+1}": _distill_net(net) for idx, net in enumerate(nets)}`,
kept as the ordered entry list. -/
def distilled_net_entries (nets : List Net) : List (String × DistilledNet) :=
  nets.enum.map (fun p => (net_display_name p.1 p.2, _distill_net p.2))

/-- distiller.py `DistillationConfig`. -/
structure DistillationConfig where
  proximity_radius_mm : ℝ
  weight_multipliers : String × String → Option ℝ
  hierarchical : Bool

/-- distiller.py `distill_schematic`. The connectivity analyzer is an external
collaborator: its outputs — the net list and (in hierarchical mode) the flattened
sheet contexts — are taken as the `nets` and `analyzer_contexts` arguments; the
symbol-library cache is the `libPinName` argument. -/
noncomputable def distill_schematic (schematic : Schematic)
    (analyzer_contexts : List (Schematic × String)) (nets : List Net)
    (cfg : DistillationConfig) (libPinName : String → String → Option String) :
    DistilledSchematic :=
  let schematic_contexts := if cfg.hierarchical then analyzer_contexts else [(schematic, "/")]
  let pin_to_net := _build_pin_net_map nets
  let distilled_components := schematic_contexts.flatMap (fun sc =>
    (sc.1.components.filter (fun c => _is_real_symbol c)).map (fun comp =>
      _distill_component comp pin_to_net (if cfg.hierarchical then some sc.2 else none) libPinName))
  let sheet_keys := distilled_components.foldl (fun ks c =>
    let k := c.sheet_path.getD "/"
    if ks.contains k then ks else ks ++ [k]) []
  let proximities := sheet_keys.flatMap (fun k =>
    _compute_proximities (distilled_components.filter (fun c => c.sheet_path.getD "/" == k))
      cfg.proximity_radius_mm cfg.weight_multipliers)
  { components := distilled_components
    nets := distilled_net_entries nets
    proximities := proximities }

/-!
Spec-modelled connectivity analyzer.

`core/connectivity.py` (the `ConnectivityAnalyzer`) is not part of the distill
sources, so the hierarchical net-construction algorithm below is modelled from
the spec, §4.2: collect the connection points of every sheet context, union them
by the listed rules (wire segments, coincidence within tolerance, same-sheet
label text, sheet-pin/hierarchical-label pairs, global power values), and read
the equivalence classes off as nets in discovery order, named with power-value
priority. Coordinates are exact fixed-point integers in micrometres (1 unit =
0.001 mm), so the spec's default 0.01 mm tolerance is `tol = 10`; "equal within
tolerance" is per-coordinate distance at most `tol`.
-/

/-- A schematic component for the analyzer model (spec §3): pins carry their
absolute positions. -/
structure CASymbol where
  reference : String
  lib_id : String
  value : String
  pins : List (String × (ℤ × ℤ))
  deriving DecidableEq, Repr

/-- A (local or hierarchical) label: text anchored at a point (spec §3). -/
structure CALabel where
  text : String
  pos : ℤ × ℤ
  deriving DecidableEq, Repr

/-- A sheet pin on a hierarchical sheet's border (spec §3). -/
structure CASheetPin where
  name : String
  pos : ℤ × ℤ
  deriving DecidableEq, Repr

/-- A hierarchical sheet instance; `child` indexes the instantiated child
schematic in the design's schematic table (spec §3). -/
structure CASheetInst where
  name : String
  child : Nat
  sheetPins : List CASheetPin
  deriving DecidableEq, Repr

/-- One schematic sheet of the design (spec §3/§6). -/
structure CASchematic where
  components : List CASymbol
  wires : List (List (ℤ × ℤ))
  junctions : List (ℤ × ℤ)
  labels : List CALabel
  hlabels : List CALabel
  sheets : List CASheetInst
  deriving DecidableEq, Repr

/-- Sheet contexts reachable from schematic `idx` (spec §4.2 step 1): the sheet
itself tagged with its slash-delimited path, then recursively every child of a
hierarchical sheet instance. `fuel` bounds the recursion depth (the spec assumes
an acyclic hierarchy). -/
def CAcontexts (design : List CASchematic) : Nat → String → Nat → List (String × CASchematic)
  | 0, _, _ => []
  | fuel + 1, path, idx =>
    match design.get? idx with
    | none => []
    | some sch =>
      (path, sch) :: sch.sheets.flatMap (fun s =>
        CAcontexts design fuel (path ++ s.name ++ "/") s.child)

/-- The kind of a connection point (spec §9: a stable identifier per point). -/
inductive CAKind where
  | pin (ref num : String)
  | wireEnd (w i : Nat)
  | junction (j : Nat)
  | label (text : String)
  | hlabel (text : String)
  | sheetPin (sheetName name : String)
  deriving DecidableEq, Repr

/-- A connection point: sheet path, stable kind, absolute position. -/
structure CAPoint where
  path : String
  kind : CAKind
  pos : ℤ × ℤ
  deriving DecidableEq, Repr

/-- Connection points of one sheet context (spec §4.2 step 1): every pin's
absolute position, every wire endpoint, every junction, every label,
hierarchical-label and sheet-pin anchor. -/
def CApointsOf (ctx : String × CASchematic) : List CAPoint :=
  let path := ctx.1
  let sch := ctx.2
  (sch.components.flatMap (fun c => c.pins.map (fun p => ⟨path, .pin c.reference p.1, p.2⟩)))
    ++ (sch.wires.enum.flatMap (fun w => w.2.enum.map (fun e => ⟨path, .wireEnd w.1 e.1, e.2⟩)))
    ++ (sch.junctions.enum.map (fun j => ⟨path, .junction j.1, j.2⟩))
    ++ (sch.labels.map (fun l => ⟨path, .label l.text, l.pos⟩))
    ++ (sch.hlabels.map (fun l => ⟨path, .hlabel l.text, l.pos⟩))
    ++ (sch.sheets.flatMap (fun s => s.sheetPins.map (fun sp => ⟨path, .sheetPin s.name sp.name, sp.pos⟩)))

/-- All connection points of the design, in context order. -/
def CApoints (ctxs : List (String × CASchematic)) : List CAPoint :=
  ctxs.flatMap CApointsOf

/-- Coordinates equal within tolerance (spec §4.2 step 2b):
each coordinate differs by at most `tol`. -/
def CAnear (tol : ℤ) (p q : ℤ × ℤ) : Bool :=
  decide (p.1 - q.1 ≤ tol) && decide (q.1 - p.1 ≤ tol) &&
    decide (p.2 - q.2 ≤ tol) && decide (q.2 - p.2 ≤ tol)

/-- Junctions and pin/label/sheet-pin anchors may union by coincidence; bare wire
endpoints may not (spec §4.2 step 2b: wire-wire crossings do not union). -/
def CAisAnchor : CAKind → Bool
  | .pin _ _ => true
  | .junction _ => true
  | .label _ => true
  | .hlabel _ => true
  | .sheetPin _ _ => true
  | .wireEnd _ _ => false

/-- The global power value of a point (spec §4.2 step 5): a pin of a component
whose library id is namespaced `power:` denotes the net named by the component's
display value. -/
def CApowerValue (ctxs : List (String × CASchematic)) (p : CAPoint) : Option String :=
  match p.kind with
  | .pin ref _ =>
    (ctxs.find? (fun c => c.1 == p.path)).bind (fun c =>
      (c.2.components.find? (fun s => s.reference == ref)).bind (fun s =>
        if strStarts (strLower s.lib_id) "power:" then some s.value else none))
  | _ => none

/-- The one-step union rules of spec §4.2 (steps 2–5), as a relation on
connection points:
(a) consecutive endpoints of one wire;
(b) coincidence within tolerance on the same sheet, involving at least one
    junction or pin/label anchor (this subsumes step 2c);
(3) equal local-label text on the same sheet;
(4) a sheet pin and the equally named hierarchical label of the instantiated
    child sheet;
(5) pins of power symbols with equal display value, anywhere in the design. -/
def CAadj (ctxs : List (String × CASchematic)) (tol : ℤ) (p q : CAPoint) : Bool :=
  (p.path == q.path &&
    match p.kind, q.kind with
    | .wireEnd w i, .wireEnd w' i' => w == w' && (i + 1 == i' || i' + 1 == i)
    | _, _ => false)
  || (p.path == q.path && CAnear tol p.pos q.pos && (CAisAnchor p.kind || CAisAnchor q.kind))
  || (p.path == q.path &&
    match p.kind, q.kind with
    | .label t, .label t' => t == t'
    | _, _ => false)
  || (match p.kind, q.kind with
    | .sheetPin sName n, .hlabel n' => n == n' && q.path == p.path ++ sName ++ "/"
    | .hlabel n', .sheetPin sName n => n == n' && p.path == q.path ++ sName ++ "/"
    | _, _ => false)
  || (match CApowerValue ctxs p, CApowerValue ctxs q with
    | some v, some v' => v == v'
    | _, _ => false)

/-- One breadth step of the union closure: keep every point touching the current
set (in either direction, the rules being symmetric in intent). -/
def CAgrow (pts : List CAPoint) (adjB : CAPoint → CAPoint → Bool) (cur : List CAPoint) :
    List CAPoint :=
  pts.filter (fun p => cur.any (fun c => c == p || adjB c p || adjB p c))

/-- Points reachable from `p` in at most `n` union steps. -/
def CAreachSet (pts : List CAPoint) (adjB : CAPoint → CAPoint → Bool) (p : CAPoint) :
    Nat → List CAPoint
  | 0 => pts.filter (fun q => q == p)
  | n + 1 => CAgrow pts adjB (CAreachSet pts adjB p n)

/-- The full equivalence class of `p` (iterating one step per point suffices). -/
def CAclassOf (pts : List CAPoint) (adjB : CAPoint → CAPoint → Bool) (p : CAPoint) :
    List CAPoint :=
  CAreachSet pts adjB p pts.length

/-- The equivalence classes in discovery order (spec §4.2 step 6). -/
def CAclasses (pts : List CAPoint) (adjB : CAPoint → CAPoint → Bool) : List (List CAPoint) :=
  pts.foldl (fun acc p =>
    if acc.any (fun cl => cl.contains p) then acc else acc ++ [CAclassOf pts adjB p]) []

/-- Display name of a class (spec §4.2 step 6): first global power value,
then first label/hierarchical-label/sheet-pin text, else none. -/
def CAclassName (ctxs : List (String × CASchematic)) (cl : List CAPoint) : Option String :=
  match cl.filterMap (fun p => CApowerValue ctxs p) with
  | v :: _ => some v
  | [] =>
    match cl.filterMap (fun p =>
      match p.kind with
      | .label t => some t
      | .hlabel t => some t
      | .sheetPin _ n => some n
      | _ => none) with
    | t :: _ => some t
    | [] => none

/-- A net of the analyzer model: display name plus (reference, pin number,
sheet path) occurrences. -/
structure CANet where
  name : Option String
  pins : List (String × String × String)
  deriving DecidableEq, Repr

/-- Hierarchical analysis (spec §4.2): one net per equivalence class, in
discovery order. -/
def CAanalyze (design : List CASchematic) (tol : ℤ) : List CANet :=
  let ctxs := CAcontexts design (design.length + 1) "/" 0
  let pts := CApoints ctxs
  (CAclasses pts (CAadj ctxs tol)).map (fun cl =>
    { name := CAclassName ctxs cl
      pins := cl.filterMap (fun p =>
        match p.kind with
        | .pin ref num => some (ref, num, p.path)
        | _ => none) })

/-- Query operation of the analyzer (spec §4.2): are two (reference, pin) pairs
on one net? -/
def CAare_connected (design : List CASchematic) (tol : ℤ)
    (ref1 pin1 ref2 pin2 : String) : Bool :=
  let ctxs := CAcontexts design (design.length + 1) "/" 0
  let pts := CApoints ctxs
  pts.any (fun p =>
    (match p.kind with
     | .pin r n => r == ref1 && n == pin1
     | _ => false) &&
    (CAclassOf pts (CAadj ctxs tol) p).any (fun q =>
      match q.kind with
      | .pin r n => r == ref2 && n == pin2
      | _ => false))

/-- Does a net named `nm` of `S` contain pin `num` of `ref` (on any sheet)? -/
def CAnetHas (S : List CANet) (nm ref num : String) : Bool :=
  S.any (fun n => n.name == some nm && n.pins.any (fun t => t.1 == ref && t.2.1 == num))

/-- Root sheet of the hierarchical scenario of spec §8: `R1` pin 1 tied to a
`VCC` power symbol, pin 2 tied to local label `DATA`, which a wire carries to
the sheet pin `DATA` of the child-sheet instance. -/
def caRoot : CASchematic :=
  { components :=
      [ { reference := "R1", lib_id := "Device:R", value := "1k"
          pins := [("1", (0, 0)), ("2", (10000, 0))] }
      , { reference := "#PWR01", lib_id := "power:VCC", value := "VCC"
          pins := [("1", (0, 0))] } ]
    wires := [[(10000, 0), (20000, 0)]]
    junctions := []
    labels := [{ text := "DATA", pos := (10000, 0) }]
    hlabels := []
    sheets := [{ name := "sheet1", child := 1
                 sheetPins := [{ name := "DATA", pos := (20000, 0) }] }] }

/-- Child sheet of the hierarchical scenario: `R2` pin 1 tied to hierarchical
label `DATA`, pin 2 tied to a `GND` power symbol. -/
def caChild : CASchematic :=
  { components :=
      [ { reference := "R2", lib_id := "Device:R", value := "1k"
          pins := [("1", (0, 0)), ("2", (10000, 0))] }
      , { reference := "#PWR02", lib_id := "power:GND", value := "GND"
          pins := [("1", (10000, 0))] } ]
    wires := []
    junctions := []
    labels := []
    hlabels := [{ text := "DATA", pos := (0, 0) }]
    sheets := [] }

/-- The two-sheet scenario design. -/
def caScenario : List CASchematic := [caRoot, caChild]

/-- The scenario's analyzed nets, at the spec's default tolerance. -/
def caScenarioNets : List CANet := CAanalyze caScenario 10

/-!
Named decision rules of the classifier, and concrete inputs used by the
witnesses and counterexamples below.
-/

/-- The capacitor rule of `_classify_component`: `C` reference prefix or `cap`
library substring. -/
def cap_rule (c : SchematicSymbol) : Bool :=
  strStarts (strUpper c.reference) "C" || strContains (strLower c.lib_id) "cap"

/-- The ic rule of `_classify_component`: `U` reference prefix or `mcu`/`ic`
library substring. -/
def ic_rule (c : SchematicSymbol) : Bool :=
  strStarts (strUpper c.reference) "U" || strContains (strLower c.lib_id) "mcu" ||
    strContains (strLower c.lib_id) "ic"

/-- The resistor rule of `_classify_component`: `R` reference prefix or `res`
library substring. -/
def res_rule (c : SchematicSymbol) : Bool :=
  strStarts (strUpper c.reference) "R" || strContains (strLower c.lib_id) "res"

/-- The inductor rule of `_classify_component`: `L` reference prefix or `ind`
library substring. -/
def ind_rule (c : SchematicSymbol) : Bool :=
  strStarts (strUpper c.reference) "L" || strContains (strLower c.lib_id) "ind"

/-- The transistor rule of `_classify_component`: `Q` reference prefix or
`transistor` library substring. -/
def trans_rule (c : SchematicSymbol) : Bool :=
  strStarts (strUpper c.reference) "Q" || strContains (strLower c.lib_id) "transistor"

/-- The classifier as claim C3 words it: all five reference-designator prefixes
are consulted first, and only afterwards the library-identifier substrings. -/
def classify_claimed (c : SchematicSymbol) : String :=
  let ref := strUpper c.reference
  let lib := strLower c.lib_id
  if strStarts ref "C" then "capacitor"
  else if strStarts ref "U" then "ic"
  else if strStarts ref "R" then "resistor"
  else if strStarts ref "L" then "inductor"
  else if strStarts ref "Q" then "transistor"
  else if strContains lib "cap" then "capacitor"
  else if strContains lib "mcu" || strContains lib "ic" then "ic"
  else if strContains lib "res" then "resistor"
  else if strContains lib "ind" then "inductor"
  else if strContains lib "transistor" then "transistor"
  else "other"

/-- A resistor-referenced part whose library id mentions `cap`: the input on
which prefix-precedence and the code disagree. -/
def r1cap : SchematicSymbol :=
  { reference := "R1", lib_id := "Device:cap", value := "100n", footprint := none
    properties := [], pins := [], position := (0, 0) }

/-- Witness nets: a named net holding R1 pin 1 and an unnamed net holding
R1 pin 2. -/
def wNets : List Net :=
  [ { name := some "VCC", pins := [{ reference := "R1", pin_number := "1", sheet_path := "/" }] }
  , { name := none, pins := [{ reference := "R1", pin_number := "2", sheet_path := "/" }] } ]

/-- Witness component with pins 1 and 2. -/
def wComp : SchematicSymbol :=
  { reference := "R1", lib_id := "Device:R", value := "1k", footprint := none
    properties := []
    pins := [ { number := "1", name := some "A", position := (0, 0) }
            , { number := "2", name := none, position := (10, 0) } ]
    position := (0, 0) }

/-- Nets in which the same (reference, pin number) pair occurs twice, under two
different sheet paths — e.g. one child sheet instantiated twice. -/
def dupNets : List Net :=
  [ { name := some "N1", pins := [{ reference := "R9", pin_number := "1", sheet_path := "/a/" }] }
  , { name := some "N2", pins := [{ reference := "R9", pin_number := "1", sheet_path := "/b/" }] } ]

/-- An ic-categorised component at the origin whose reference does not start
with `U`. -/
def c4ic : DistilledComponent :=
  { reference := "X1", lib_id := "Analog:ADC", value := "A", position := (0, 0)
    footprint := none, properties := [], pins := [], category := "ic", sheet_path := none }

/-- A capacitor 5 mm away from `c4ic`. -/
def c4cap : DistilledComponent :=
  { reference := "C1", lib_id := "Device:C", value := "100n", position := (5, 0)
    footprint := none, properties := [], pins := [], category := "capacitor", sheet_path := none }

/-- An ic-categorised component at the origin (U-referenced). -/
def c5ic : DistilledComponent :=
  { reference := "U3", lib_id := "Device:U", value := "IC", position := (0, 0)
    footprint := none, properties := [], pins := [], category := "ic", sheet_path := none }

/-- A capacitor 25 mm away from `c5ic`: beyond the base radius, inside the
extended one. -/
def c5cap : DistilledComponent :=
  { reference := "C5", lib_id := "Device:C", value := "C", position := (25, 0)
    footprint := none, properties := [], pins := [], category := "capacitor", sheet_path := none }

/-- A resistor at the origin. -/
def c5res1 : DistilledComponent :=
  { reference := "R7", lib_id := "Device:R", value := "1k", position := (0, 0)
    footprint := none, properties := [], pins := [], category := "resistor", sheet_path := none }

/-- A resistor 25 mm away from `c5res1`. -/
def c5res2 : DistilledComponent :=
  { reference := "R8", lib_id := "Device:R", value := "1k", position := (25, 0)
    footprint := none, properties := [], pins := [], category := "resistor", sheet_path := none }

/-- An asymmetric multiplier mapping: both orientations of the pair (x, y) are
present with different values. -/
noncomputable def wmAsym : String × String → Option ℝ :=
  fun p =>
    if p = ("x", "y") then some 5
    else if p = ("y", "x") then some 7
    else none

/-- A symmetric multiplier mapping on the pair (x, y). -/
noncomputable def wmSym : String × String → Option ℝ :=
  fun p =>
    if p = ("x", "y") then some 2
    else if p = ("y", "x") then some 2
    else none

/-- A component of category `x`. -/
def c6a : DistilledComponent :=
  { reference := "A1", lib_id := "Lib:A", value := "a", position := (0, 0)
    footprint := none, properties := [], pins := [], category := "x", sheet_path := none }

/-- A component of category `y`. -/
def c6b : DistilledComponent :=
  { reference := "B1", lib_id := "Lib:B", value := "b", position := (1, 0)
    footprint := none, properties := [], pins := [], category := "y", sheet_path := none }

/-- A physical part whose reference happens to start with `Net-`. -/
def netComp1 : SchematicSymbol :=
  { reference := "Net-runner", lib_id := "Device:R", value := "1k", footprint := none
    properties := [], pins := [], position := (0, 0) }

/-- A part whose reference starts with lower-case `net-`. -/
def netComp2 : SchematicSymbol :=
  { reference := "net-5", lib_id := "Conn:J", value := "j", footprint := none
    properties := [], pins := [], position := (0, 0) }

/-- A distilled component whose reference starts with `NET-`. -/
def netComp3 : DistilledComponent :=
  { reference := "NET-X", lib_id := "Device:R", value := "1k", position := (0, 0)
    footprint := none, properties := [], pins := [], category := "resistor", sheet_path := none }

/-- The unnamed second net of `wNets`. -/
def unnamedDataNet : Net :=
  { name := none, pins := [{ reference := "R1", pin_number := "2", sheet_path := "/" }] }

/-- The one edge of the C4 witness pair. -/
noncomputable def c4edge : ProximityEdge :=
  { ref_a := "X1", ref_b := "C1", distance_mm := 5, score := 3 / 2
    category_a := "ic", category_b := "capacitor", weight := 2 }

/-- The one edge of the C5 witness pair. -/
noncomputable def c5edge : ProximityEdge :=
  { ref_a := "U3", ref_b := "C5", distance_mm := 25, score := 0
    category_a := "ic", category_b := "capacitor", weight := 6 }

/-!
Theorems.
-/

/-- Lookup after folding dict writes of one constant value over a pin list:
hit iff some pin matches the key. -/
theorem foldWrite_apply (v : String) (r n : String) :
    ∀ (pins : List PinConnection) (m : String × String → Option String),
    pins.foldl (fun m pin => dictInsert m (pin.reference, pin.pin_number) v) m (r, n)
      = if pins.any (fun pc => pc.reference == r && pc.pin_number == n) then some v
        else m (r, n) := by
  intro pins
  induction pins with
  | nil => intro m; simp
  | cons p ps ih =>
    intro m
    rw [List.foldl_cons, ih]
    by_cases hp : (p.reference == r && p.pin_number == n) = true
    · have hk : ((r, n) : String × String) = (p.reference, p.pin_number) := by
        simp only [Bool.and_eq_true, beq_iff_eq] at hp
        simp [hp.1, hp.2]
      by_cases hps : (ps.any fun pc => pc.reference == r && pc.pin_number == n) = true
      · simp [hps, hp]
      · simp [hps, hp, dictInsert, hk]
    · by_cases hps : (ps.any fun pc => pc.reference == r && pc.pin_number == n) = true
      · simp [hps, hp]
      · have hk : ((r, n) : String × String) ≠ (p.reference, p.pin_number) := by
          simp only [Bool.and_eq_true, beq_iff_eq] at hp
          intro hcon
          rw [Prod.mk.injEq] at hcon
          exact hp ⟨hcon.1.symm, hcon.2.symm⟩
        simp [hps, hp, dictInsert, hk]

/-- `writeNetPins` writes the net's display name at exactly the keys of the
net's pins. -/
theorem writeNetPins_apply (m : String × String → Option String) (idx : Nat) (net : Net)
    (r n : String) :
    writeNetPins m idx net (r, n)
      = if netHasPin net r n then some (net_display_name idx net) else m (r, n) := by
  unfold writeNetPins netHasPin
  exact foldWrite_apply _ _ _ _ _

/-- Lookup in `_build_pin_net_map_aux`, characterised: last containing net wins,
else the incoming dict is consulted. -/
theorem build_aux_char (r n : String) :
    ∀ (nets : List Net) (idx : Nat) (m : String × String → Option String),
    _build_pin_net_map_aux idx nets m (r, n)
      = (((netsContainingFrom idx nets r n).getLast?).map
          (fun p => net_display_name p.1 p.2)).or (m (r, n)) := by
  intro nets
  induction nets with
  | nil =>
    intro idx m
    simp [_build_pin_net_map_aux, netsContainingFrom]
  | cons net rest ih =>
    intro idx m
    show _build_pin_net_map_aux (idx + 1) rest (writeNetPins m idx net) (r, n) = _
    rw [ih, writeNetPins_apply]
    simp only [netsContainingFrom, List.enumFrom_cons, List.filter_cons]
    by_cases h : netHasPin net r n
    · rw [if_pos h, if_pos (by exact h), List.getLast?_cons]
      cases hL : ((rest.enumFrom (idx + 1)).filter (fun p => netHasPin p.2 r n)).getLast? with
      | none => simp [hL, Option.or]
      | some q => simp [hL, Option.or]
    · rw [if_neg h, if_neg (by exact h)]

/-- The pin → net-name map, characterised: the name attached to a
(reference, pin number) pair is the display name of the **last** net in the
analyzer's net-list order that contains the pair, and `none` when no net does. -/
theorem build_map_char (nets : List Net) (r n : String) :
    _build_pin_net_map nets (r, n)
      = ((netsContaining nets r n).getLast?).map (fun p => net_display_name p.1 p.2) := by
  unfold _build_pin_net_map
  rw [build_aux_char r n nets 0 (fun _ => none)]
  rw [show netsContaining nets r n = netsContainingFrom 0 nets r n from rfl]
  exact Option.or_none

/-- Sheet paths are invisible to the pin map: relabelling every occurrence's
sheet path leaves every lookup unchanged. -/
theorem build_map_relabel (f : PinConnection → String) (nets : List Net) (r n : String) :
    _build_pin_net_map (relabelSheets f nets) (r, n) = _build_pin_net_map nets (r, n) := by
  rw [build_map_char, build_map_char]
  unfold netsContaining relabelSheets
  have he : ∀ (l : List Net), l.enum = l.enumFrom 0 := fun _ => rfl
  rw [he, he, List.enumFrom_map, List.filter_map, List.getLast?_map]
  have heq : ∀ (p : Nat × Net),
      ((fun p : Nat × Net => netHasPin p.2 r n) ∘ Prod.map id
        (fun nt : Net => { nt with pins := nt.pins.map (fun pc => { pc with sheet_path := f pc }) })) p
        = netHasPin p.2 r n := by
    intro p
    simp only [Function.comp, netHasPin, List.any_map, Prod.map]
    rfl
  rw [List.filter_congr (fun p _ => heq p)]
  cases ((nets.enumFrom 0).filter (fun p => netHasPin p.2 r n)).getLast? with
  | none => rfl
  | some q => simp [net_display_name, Prod.map]

/-- The last element of a list is a member. -/
theorem mem_of_getLast? {α : Type _} : ∀ {l : List α} {a : α}, l.getLast? = some a → a ∈ l := by
  intro l
  induction l with
  | nil => intro a h; cases h
  | cons x xs ih =>
    intro a h
    rw [List.getLast?_cons] at h
    cases hx : xs.getLast? with
    | none =>
      rw [hx] at h
      simp only [Option.getD_none, Option.some.injEq] at h
      exact h ▸ List.mem_cons_self x xs
    | some b =>
      rw [hx] at h
      simp only [Option.getD_some, Option.some.injEq] at h
      exact List.mem_cons_of_mem x (h ▸ ih hx)

/-- The k-th distilled pin mirrors the k-th resolved pin: its net is the pin
map's value at (reference, pin number). -/
theorem distill_pins_get? (comp : SchematicSymbol) (m : String × String → Option String)
    (sp : Option String) (lib : String → String → Option String) (k : Nat) :
    ((_distill_component comp m sp lib).pins.get? k)
      = ((list_component_pins comp).get? k).map (fun p =>
          { number := p.1, net := m (comp.reference, p.1), position := p.2
            name := _resolve_pin_name comp lib p.1 }) := by
  show ((list_component_pins comp).map _).get? k = _
  exact List.get?_map _ _ _

/-- C1: for every distilled pin of a component, assuming the analyzer invariant
that each (reference, pin number) pair of the component lies in exactly one net
(spec §3 — the analyzer itself is outside src), the distilled pin's `net` field
is the display name of that unique net; the pin-to-net assignment is total and
single-valued. -/
theorem c1_pin_net_total_unique (nets : List Net) (comp : SchematicSymbol)
    (sp : Option String) (lib : String → String → Option String)
    (huniq : ∀ pn pos, ((pn, pos) ∈ list_component_pins comp) →
      ∃ i net1, netsContaining nets comp.reference pn = [(i, net1)])
    (k : Nat) (pn : String) (pos : ℝ × ℝ)
    (hk : (list_component_pins comp).get? k = some (pn, pos)) :
    ∃ i net1, netsContaining nets comp.reference pn = [(i, net1)] ∧
      ((_distill_component comp (_build_pin_net_map nets) sp lib).pins.get? k).map
          DistilledPin.net
        = some (some (net_display_name i net1)) := by
  obtain ⟨i, net1, hu⟩ := huniq pn pos (List.get?_mem hk)
  refine ⟨i, net1, hu, ?_⟩
  rw [distill_pins_get?, hk]
  simp only [Option.map_some']
  have hb := build_map_char nets comp.reference pn
  rw [hu] at hb
  simp only [List.getLast?_cons, List.getLast?_nil, Option.getD_none, Option.map_some'] at hb
  simp [hb]

/-- C1 witness: for component `wComp` against nets `wNets`, pin 1 lies on the
unique net `VCC` and the distilled pin carries its name. -/
theorem c1_witness :
    ∃ i net1, netsContaining wNets "R1" "1" = [(i, net1)] ∧
      ((_distill_component wComp (_build_pin_net_map wNets) none (fun _ _ => none)).pins.get? 0).map
          DistilledPin.net
        = some (some (net_display_name i net1)) :=
  c1_pin_net_total_unique wNets wComp none (fun _ _ => none)
    (by
      intro pn pos hmem
      simp only [list_component_pins, wComp, List.map_cons, List.map_nil, List.mem_cons,
        List.mem_singleton, Prod.mk.injEq] at hmem
      rcases hmem with ⟨h1, _⟩ | ⟨h1, _⟩ | h0
      rotate_right
      · cases h0
      · exact ⟨0, { name := some "VCC"
                    pins := [{ reference := "R1", pin_number := "1", sheet_path := "/" }] },
          by rw [h1]; decide⟩
      · exact ⟨1, { name := none
                    pins := [{ reference := "R1", pin_number := "2", sheet_path := "/" }] },
          by rw [h1]; decide⟩)
    0 "1" ((0 : ℝ), (0 : ℝ)) rfl

/-- C10: the pin-to-net lookup is keyed on (reference, pin number) only — any
relabelling of sheet paths leaves it unchanged; its value is the display name of
the last net in the analyzer's net-list order containing the pair (`none` when
no net does); and the distilled pin's `net` field is exactly that lookup. -/
theorem c10_pin_map_drops_sheet_last_wins :
    (∀ (f : PinConnection → String) (nets : List Net) (r n : String),
      _build_pin_net_map (relabelSheets f nets) (r, n) = _build_pin_net_map nets (r, n)) ∧
    (∀ (nets : List Net) (r n : String),
      _build_pin_net_map nets (r, n)
        = ((netsContaining nets r n).getLast?).map (fun p => net_display_name p.1 p.2)) ∧
    (∀ (nets : List Net) (comp : SchematicSymbol) (sp : Option String)
        (lib : String → String → Option String) (k : Nat) (pn : String) (pos : ℝ × ℝ),
      (list_component_pins comp).get? k = some (pn, pos) →
      ((_distill_component comp (_build_pin_net_map nets) sp lib).pins.get? k).map
          DistilledPin.net
        = some (_build_pin_net_map nets (comp.reference, pn))) := by
  refine ⟨build_map_relabel, build_map_char, ?_⟩
  intro nets comp sp lib k pn pos hk
  rw [distill_pins_get?, hk]
  rfl

/-- C10 witness: the duplicated pair (R9, 1) receives the name of the *last* net
containing it, an absent pair receives `none`, and a distilled pin of `wComp`
carries the lookup's value. -/
theorem c10_witness :
    _build_pin_net_map dupNets ("R9", "1") = some "N2" ∧
    _build_pin_net_map dupNets ("R9", "9") = none ∧
    ((_distill_component wComp (_build_pin_net_map wNets) none (fun _ _ => none)).pins.get? 0).map
        DistilledPin.net
      = some (_build_pin_net_map wNets ("R1", "1")) := by
  refine ⟨?_, by decide, ?_⟩
  · rw [c10_pin_map_drops_sheet_last_wins.2.1 dupNets "R9" "1"]
    decide
  · exact c10_pin_map_drops_sheet_last_wins.2.2 wNets wComp none (fun _ _ => none) 0 "1"
      ((0 : ℝ), (0 : ℝ)) rfl

/-- Helper: decomposing a pin-map hit into the containing net. -/
theorem build_map_some (nets : List Net) (r n nm : String)
    (h : _build_pin_net_map nets (r, n) = some nm) :
    ∃ j netj, nets.get? j = some netj ∧ netHasPin netj r n = true ∧
      nm = net_display_name j netj := by
  rw [build_map_char] at h
  cases hL : (netsContaining nets r n).getLast? with
  | none => rw [hL] at h; cases h
  | some p =>
    rw [hL] at h
    simp only [Option.map_some', Option.some.injEq] at h
    have hmem := mem_of_getLast? hL
    unfold netsContaining at hmem
    rw [List.mem_filter] at hmem
    obtain ⟨hin, hpin⟩ := hmem
    have hidx := List.mem_enumFrom (show (p.1, p.2) ∈ List.enumFrom 0 nets by simpa using hin)
    refine ⟨p.1, p.2, ?_, hpin, h.symm⟩
    obtain ⟨-, hlt, hv⟩ := hidx
    rw [List.get?_eq_getElem?]
    simp only [Nat.sub_zero] at hv
    rw [List.getElem?_eq_getElem (by omega)]
    rw [← hv]

/-- C7 counterexample: with a named net first and an unnamed net second, the
unnamed class's synthesized key is `Net-2` (its position among all nets), not
`Net-1` (its position among the unnamed ones), refuting the claimed
unnamed-only indexing. -/
theorem c7_counterexample :
    (distilled_net_entries wNets).map Prod.fst = ["VCC", "Net-2"] ∧
    (distilled_net_entries wNets).map Prod.fst ≠ ["VCC", "Net-1"] := by
  exact ⟨by decide, by decide⟩

/-- C7 amended: an unnamed (or empty-named) class at position `i` of the
analyzer's full net list is keyed `Net-(i+1)` — a 1-based index over **all**
nets in net-list order — and every name the per-pin annotations use is the
display name, under the same all-nets index, of a net containing the pin. -/
theorem c7_net_naming_all_nets_index :
    (∀ (nets : List Net) (i : Nat) (net1 : Net), nets.get? i = some net1 →
      (distilled_net_entries nets).get? i = some (net_display_name i net1, _distill_net net1)) ∧
    (∀ (nets : List Net) (i : Nat) (net1 : Net), nets.get? i = some net1 →
      strTruthy net1.name = false →
      net_display_name i net1 = "Net-" ++ toString (i + 1)) ∧
    (∀ (nets : List Net) (r n nm : String), _build_pin_net_map nets (r, n) = some nm →
      ∃ j netj, nets.get? j = some netj ∧ netHasPin netj r n = true ∧
        nm = net_display_name j netj) := by
  refine ⟨?_, ?_, build_map_some⟩
  · intro nets i net1 hi
    unfold distilled_net_entries
    rw [List.get?_map, List.enum_get?, hi]
    rfl
  · intro nets i net1 hi htr
    unfold net_display_name orStr
    cases hname : net1.name with
    | none => rfl
    | some s =>
      rw [hname] at htr
      have hs : s = "" := by simpa [strTruthy] using htr
      subst hs
      rfl

/-- C7 witness: instantiating the amended naming on `wNets`: the unnamed second
net is keyed `Net-2`, and the annotation value `Net-2` for (R1, 2) is the
display name of a containing net. -/
theorem c7_witness :
    (distilled_net_entries wNets).get? 1
        = some (net_display_name 1 unnamedDataNet, _distill_net unnamedDataNet) ∧
    net_display_name 1 unnamedDataNet = "Net-2" ∧
    (∃ j netj, wNets.get? j = some netj ∧ netHasPin netj "R1" "2" = true ∧
      "Net-2" = net_display_name j netj) := by
  refine ⟨c7_net_naming_all_nets_index.1 wNets 1 _ (by decide),
    c7_net_naming_all_nets_index.2.1 wNets 1 _ (by decide) (by decide),
    c7_net_naming_all_nets_index.2.2 wNets "R1" "2" "Net-2" (by decide)⟩

/-- C3 counterexample: on reference `R1` with library id `Device:cap`, the
claimed prefix-first classifier answers `resistor`, but the code answers
`capacitor` — the `cap` library substring of the first rule overrides the `R`
reference prefix of the later rule. -/
theorem c3_counterexample :
    classify_claimed r1cap = "resistor" ∧
    _classify_component r1cap = "capacitor" ∧
    classify_claimed r1cap ≠ _classify_component r1cap := by
  exact ⟨by decide, by decide, by decide⟩

/-- C3 amended: the classifier always answers one of the six categories, and it
checks the categories in the fixed order capacitor, ic, resistor, inductor,
transistor, other — each category firing when the upper-cased reference starts
with its designator letter OR the lower-cased library id contains its
substring(s); an earlier category's library substring therefore overrides a
later category's reference prefix. -/
theorem c3_classifier_rule_order (c : SchematicSymbol) :
    _classify_component c
        ∈ (["capacitor", "ic", "resistor", "inductor", "transistor", "other"] : List String) ∧
    (cap_rule c = true → _classify_component c = "capacitor") ∧
    (cap_rule c = false → ic_rule c = true → _classify_component c = "ic") ∧
    (cap_rule c = false → ic_rule c = false → res_rule c = true →
      _classify_component c = "resistor") ∧
    (cap_rule c = false → ic_rule c = false → res_rule c = false → ind_rule c = true →
      _classify_component c = "inductor") ∧
    (cap_rule c = false → ic_rule c = false → res_rule c = false → ind_rule c = false →
      trans_rule c = true → _classify_component c = "transistor") ∧
    (cap_rule c = false → ic_rule c = false → res_rule c = false → ind_rule c = false →
      trans_rule c = false → _classify_component c = "other") := by
  constructor
  · unfold _classify_component
    simp only []
    split_ifs <;> simp
  unfold _classify_component cap_rule ic_rule res_rule ind_rule trans_rule
  refine ⟨?_, ?_, ?_, ?_, ?_, ?_⟩ <;> intros <;> simp_all

/-- C3 witness: the capacitor rule fires on `r1cap`, so the classifier answers
`capacitor`. -/
theorem c3_witness :
    cap_rule r1cap = true ∧ _classify_component r1cap = "capacitor" :=
  ⟨by decide, (c3_classifier_rule_order r1cap).2.1 (by decide)⟩

/-- The decoupling-boost test of `_pair_weight` is symmetric in the pair. -/
theorem boost_symm (a b : DistilledComponent) :
    (_is_ic_cap_pair a b && (_is_u_ref a.reference || _is_u_ref b.reference))
      = (_is_ic_cap_pair b a && (_is_u_ref b.reference || _is_u_ref a.reference)) := by
  simp [_is_ic_cap_pair, Bool.and_comm, Bool.or_comm]

/-- C6 counterexample: with a mapping that carries *different* values on the two
orientations of one category pair, the computed weight depends on the argument
order — 7 one way, 5 the other — refuting symmetry over every mapping. -/
theorem c6_counterexample :
    _pair_weight c6a c6b wmAsym = 7 ∧ _pair_weight c6b c6a wmAsym = 5 ∧ (7 : ℝ) ≠ 5 := by
  refine ⟨?_, ?_, by norm_num⟩ <;>
    simp [_pair_weight, wmAsym, c6a, c6b, _is_ic_cap_pair, _is_u_ref]

/-- C6 amended: the weight lookup is symmetric for every mapping whose two
orientations of a pair, when both present, agree (the default table is such a
mapping); when the category pair is absent in both orientations and the
decoupling boost does not fire, the weight defaults to 1.0. -/
theorem c6_pair_weight_symm (a b : DistilledComponent) (wm : String × String → Option ℝ)
    (hsymm : ∀ x y v w, wm (x, y) = some v → wm (y, x) = some w → v = w) :
    _pair_weight a b wm = _pair_weight b a wm ∧
    (wm (a.category, b.category) = none → wm (b.category, a.category) = none →
      (_is_ic_cap_pair a b && (_is_u_ref a.reference || _is_u_ref b.reference)) = false →
      _pair_weight a b wm = 1) := by
  constructor
  · unfold _pair_weight
    cases h1 : wm (a.category, b.category) with
    | none =>
      cases h2 : wm (b.category, a.category) with
      | none => simp [h1, h2, boost_symm a b]
      | some v => simp [h1, h2, boost_symm a b]
    | some v =>
      cases h2 : wm (b.category, a.category) with
      | none => simp [h1, h2, boost_symm a b]
      | some w =>
        have hvw := hsymm _ _ _ _ h1 h2
        simp [h1, h2, boost_symm a b, hvw]
  · intro h1 h2 hb
    unfold _pair_weight
    simp [h1, h2, hb]
    norm_num

/-- C6 witness: on the symmetric mapping `wmSym` the weight is order-invariant,
and a pair absent from the mapping (categories resistor/y, no boost) weighs 1. -/
theorem c6_witness :
    _pair_weight c6a c6b wmSym = _pair_weight c6b c6a wmSym ∧
    _pair_weight c5res1 c6b wmSym = 1 := by
  have hs : ∀ x y v w, wmSym (x, y) = some v → wmSym (y, x) = some w → v = w := by
    intro x y v w hx hy
    unfold wmSym at hx hy
    split_ifs at hx hy <;> simp_all
  refine ⟨(c6_pair_weight_symm c6a c6b wmSym hs).1,
    (c6_pair_weight_symm c5res1 c6b wmSym hs).2 ?_ ?_ (by decide)⟩
  · simp [wmSym, c5res1, c6b]
  · simp [wmSym, c5res1, c6b]

/-- The proximity loop on a two-component list visits exactly the one pair. -/
theorem compute_two (a b : DistilledComponent) (r : ℝ) (wm : String × String → Option ℝ) :
    _compute_proximities [a, b] r wm = (_edge_for a b r wm).toList := by
  unfold _compute_proximities pairsAfter pairsAfter pairsAfter
  cases h : _edge_for a b r wm <;> simp [h, List.filterMap]

/-- Distance between two points of equal ordinate. -/
theorem distance_horizontal (x₁ x₂ y : ℝ) (h : x₁ ≤ x₂) :
    _distance (x₁, y) (x₂, y) = x₂ - x₁ := by
  unfold _distance
  rw [show ((x₁, y).1 - (x₂, y).1) ^ 2 + ((x₁, y).2 - (x₂, y).2) ^ 2 = (x₂ - x₁) ^ 2 by ring]
  exact Real.sqrt_sq (by linarith)

/-- Evaluating one loop iteration when both components are real and the
distance is inside the applicable radius. -/
theorem edge_for_eval (a b : DistilledComponent) (r : ℝ) (wm : String × String → Option ℝ)
    (hra : _is_real_component a = true) (hrb : _is_real_component b = true)
    (d : ℝ) (hd : _distance a.position b.position = d)
    (hle : d ≤ (if _is_ic_cap_pair a b then r * 1.5 else r)) :
    _edge_for a b r wm
      = some { ref_a := a.reference, ref_b := b.reference, distance_mm := d
               score := max 0 ((r - d) / r) * _pair_weight a b wm
               category_a := a.category, category_b := b.category
               weight := _pair_weight a b wm } := by
  unfold _edge_for
  simp only [hra, hrb, Bool.and_self, if_true, hd]
  rw [if_neg (not_lt.mpr hle)]

/-- One loop iteration emits nothing when the distance exceeds the applicable
radius. -/
theorem edge_for_skip (a b : DistilledComponent) (r : ℝ) (wm : String × String → Option ℝ)
    (hgt : _distance a.position b.position > (if _is_ic_cap_pair a b then r * 1.5 else r)) :
    _edge_for a b r wm = none := by
  unfold _edge_for
  by_cases hr : (_is_real_component a && _is_real_component b) = true
  · simp only [hr, if_true]
    rw [if_pos hgt]
  · simp only [hr, if_false]
    rw [Bool.not_eq_true] at hr
    simp [hr]

/-- The pair weight of an ic/capacitor pair under the default multipliers:
2.0, boosted by 3.0 when either reference is U-prefixed. -/
theorem pair_weight_ic_cap_default (a b : DistilledComponent)
    (hca : a.category = "ic") (hcb : b.category = "capacitor") :
    _pair_weight a b DEFAULT_WEIGHT_MULTIPLIERS
      = (if _is_u_ref a.reference || _is_u_ref b.reference then (2 : ℝ) * 3.0 else 2) := by
  have hic : _is_ic_cap_pair a b = true := by simp [_is_ic_cap_pair, hca, hcb]
  unfold _pair_weight
  rw [hca, hcb]
  simp only [DEFAULT_WEIGHT_MULTIPLIERS]
  norm_num
  rw [hic]
  cases hu : (_is_u_ref a.reference || _is_u_ref b.reference) <;> simp

/-- C4: an ic-categorised real component at the origin and a capacitor-categorised
real component at (5, 0), with base radius 20 and the default multipliers, yield
exactly one proximity edge; its score is strictly positive and its weight is 2.0,
multiplied by the additional 3.0 exactly when either reference starts with `U`. -/
theorem c4_ic_cap_default_edge (a b : DistilledComponent)
    (hra : _is_real_component a = true) (hrb : _is_real_component b = true)
    (hca : a.category = "ic") (hcb : b.category = "capacitor")
    (hpa : a.position = ((0 : ℝ), 0)) (hpb : b.position = ((5 : ℝ), 0)) :
    ∃ e, _compute_proximities [a, b] 20 DEFAULT_WEIGHT_MULTIPLIERS = [e] ∧
      0 < e.score ∧
      e.weight = (if _is_u_ref a.reference || _is_u_ref b.reference then (2 : ℝ) * 3.0 else 2) := by
  have hic : _is_ic_cap_pair a b = true := by simp [_is_ic_cap_pair, hca, hcb]
  have hd : _distance a.position b.position = 5 := by
    rw [hpa, hpb, distance_horizontal 0 5 0 (by norm_num)]
    norm_num
  have hedge := edge_for_eval a b 20 DEFAULT_WEIGHT_MULTIPLIERS hra hrb 5 hd
    (by rw [hic]; norm_num)
  refine ⟨{ ref_a := a.reference, ref_b := b.reference, distance_mm := 5
            score := max 0 (((20 : ℝ) - 5) / 20) * _pair_weight a b DEFAULT_WEIGHT_MULTIPLIERS
            category_a := a.category, category_b := b.category
            weight := _pair_weight a b DEFAULT_WEIGHT_MULTIPLIERS }, ?_, ?_, ?_⟩
  · rw [compute_two, hedge]
    rfl
  · show (0 : ℝ) < max 0 (((20 : ℝ) - 5) / 20) * _pair_weight a b DEFAULT_WEIGHT_MULTIPLIERS
    rw [pair_weight_ic_cap_default a b hca hcb]
    cases hu : (_is_u_ref a.reference || _is_u_ref b.reference) <;> norm_num
  · show _pair_weight a b DEFAULT_WEIGHT_MULTIPLIERS = _
    exact pair_weight_ic_cap_default a b hca hcb

/-- C4 witness: the concrete pair `c4ic` (reference `X1`, not U-prefixed) and
`c4cap` yields exactly the edge `c4edge`, with weight 2.0 and positive score. -/
theorem c4_witness :
    _compute_proximities [c4ic, c4cap] 20 DEFAULT_WEIGHT_MULTIPLIERS = [c4edge] ∧
    0 < c4edge.score ∧ c4edge.weight = 2 := by
  obtain ⟨e, he, hs, hw⟩ := c4_ic_cap_default_edge c4ic c4cap rfl rfl rfl rfl rfl rfl
  have heq : _compute_proximities [c4ic, c4cap] 20 DEFAULT_WEIGHT_MULTIPLIERS = [c4edge] := by
    have hd : _distance c4ic.position c4cap.position = 5 := by
      rw [show c4ic.position = ((0 : ℝ), 0) from rfl, show c4cap.position = ((5 : ℝ), 0) from rfl,
        distance_horizontal 0 5 0 (by norm_num)]
      norm_num
    rw [compute_two, edge_for_eval c4ic c4cap 20 DEFAULT_WEIGHT_MULTIPLIERS rfl rfl 5 hd
      (by rw [show _is_ic_cap_pair c4ic c4cap = true from rfl]; norm_num)]
    show [_] = [c4edge]
    rw [pair_weight_ic_cap_default c4ic c4cap rfl rfl]
    rw [show (_is_u_ref c4ic.reference || _is_u_ref c4cap.reference) = false from rfl]
    simp only [Bool.false_eq_true, if_false, c4edge]
    norm_num
    refine ⟨?_, ?_, ?_, ?_⟩ <;> rfl
  have hee : e = c4edge := by
    rw [he] at heq
    simpa using heq
  exact ⟨heq, hee ▸ hs, rfl⟩

/-- C5 amended: an ic/capacitor pair 25 mm apart with base radius 20 is included
via the extended 1.5× radius, but its score is exactly 0 (not nonzero), since the
score formula max(0, (base_radius − d)/base_radius) × weight — always normalized
by the base radius, never the extended one — vanishes for d ≥ base_radius; a
same-distance pair whose category set is not ic/capacitor yields no edge. -/
theorem c5_extended_radius_zero_score :
    (∀ a b : DistilledComponent,
      _is_real_component a = true → _is_real_component b = true →
      a.category = "ic" → b.category = "capacitor" →
      a.position = ((0 : ℝ), 0) → b.position = ((25 : ℝ), 0) →
      ∃ e, _compute_proximities [a, b] 20 DEFAULT_WEIGHT_MULTIPLIERS = [e] ∧
        e.distance_mm = 25 ∧ e.score = 0) ∧
    (∀ (a b : DistilledComponent) (wm : String × String → Option ℝ),
      _is_ic_cap_pair a b = false →
      a.position = ((0 : ℝ), 0) → b.position = ((25 : ℝ), 0) →
      _compute_proximities [a, b] 20 wm = []) ∧
    (∀ (comps : List DistilledComponent) (r : ℝ) (wm : String × String → Option ℝ)
        (e : ProximityEdge), e ∈ _compute_proximities comps r wm →
      e.score = max 0 ((r - e.distance_mm) / r) * e.weight) := by
  refine ⟨?_, ?_, ?_⟩
  · intro a b hra hrb hca hcb hpa hpb
    have hic : _is_ic_cap_pair a b = true := by simp [_is_ic_cap_pair, hca, hcb]
    have hd : _distance a.position b.position = 25 := by
      rw [hpa, hpb, distance_horizontal 0 25 0 (by norm_num)]
      norm_num
    have hedge := edge_for_eval a b 20 DEFAULT_WEIGHT_MULTIPLIERS hra hrb 25 hd
      (by rw [hic]; norm_num)
    refine ⟨{ ref_a := a.reference, ref_b := b.reference, distance_mm := 25
              score := max 0 (((20 : ℝ) - 25) / 20) * _pair_weight a b DEFAULT_WEIGHT_MULTIPLIERS
              category_a := a.category, category_b := b.category
              weight := _pair_weight a b DEFAULT_WEIGHT_MULTIPLIERS }, ?_, rfl, ?_⟩
    · rw [compute_two, hedge]
      rfl
    · show max 0 (((20 : ℝ) - 25) / 20) * _pair_weight a b DEFAULT_WEIGHT_MULTIPLIERS = 0
      rw [max_eq_left (by norm_num : ((20 : ℝ) - 25) / 20 ≤ 0), zero_mul]
  · intro a b wm hic hpa hpb
    have hd : _distance a.position b.position = 25 := by
      rw [hpa, hpb, distance_horizontal 0 25 0 (by norm_num)]
      norm_num
    rw [compute_two, edge_for_skip a b 20 wm (by rw [hd, hic]; norm_num)]
    rfl
  · intro comps r wm e he
    unfold _compute_proximities at he
    rw [List.mem_filterMap] at he
    obtain ⟨p, hp, hedge⟩ := he
    unfold _edge_for at hedge
    by_cases hr : (_is_real_component p.1 && _is_real_component p.2) = true
    · rw [if_pos hr] at hedge
      simp only [] at hedge
      by_cases hgt : _distance p.1.position p.2.position
          > (if _is_ic_cap_pair p.1 p.2 then r * 1.5 else r)
      · rw [if_pos hgt] at hedge
        cases hedge
      · rw [if_neg hgt] at hedge
        have hrec := Option.some.inj hedge
        rw [← hrec]
    · rw [if_neg hr] at hedge
      cases hedge

/-- C5 counterexample: the ic/capacitor pair `c5ic`/`c5cap` at 25 mm is emitted
as exactly one edge whose score is exactly 0 — not nonzero as claimed. -/
theorem c5_counterexample :
    (_compute_proximities [c5ic, c5cap] 20 DEFAULT_WEIGHT_MULTIPLIERS).map ProximityEdge.score
      = [0] ∧
    (_compute_proximities [c5ic, c5cap] 20 DEFAULT_WEIGHT_MULTIPLIERS).length = 1 := by
  have hd : _distance c5ic.position c5cap.position = 25 := by
    rw [show c5ic.position = ((0 : ℝ), 0) from rfl, show c5cap.position = ((25 : ℝ), 0) from rfl,
      distance_horizontal 0 25 0 (by norm_num)]
    norm_num
  have heq := edge_for_eval c5ic c5cap 20 DEFAULT_WEIGHT_MULTIPLIERS rfl rfl 25 hd
    (by rw [show _is_ic_cap_pair c5ic c5cap = true from rfl]; norm_num)
  rw [compute_two, heq]
  constructor
  · show [max 0 (((20 : ℝ) - 25) / 20) * _pair_weight c5ic c5cap DEFAULT_WEIGHT_MULTIPLIERS] = [0]
    rw [max_eq_left (by norm_num : ((20 : ℝ) - 25) / 20 ≤ 0), zero_mul]
  · rfl

/-- C5 witness: the amended statement instantiated — `c5ic`/`c5cap` produce the
single zero-score edge `c5edge`; the resistor pair `c5res1`/`c5res2` at the same
distance produces none; and `c5edge` satisfies the score formula. -/
theorem c5_witness :
    _compute_proximities [c5ic, c5cap] 20 DEFAULT_WEIGHT_MULTIPLIERS = [c5edge] ∧
    c5edge.score = 0 ∧ c5edge.distance_mm = 25 ∧
    _compute_proximities [c5res1, c5res2] 20 DEFAULT_WEIGHT_MULTIPLIERS = [] ∧
    c5edge.score = max 0 ((20 - c5edge.distance_mm) / 20) * c5edge.weight := by
  have hd : _distance c5ic.position c5cap.position = 25 := by
    rw [show c5ic.position = ((0 : ℝ), 0) from rfl, show c5cap.position = ((25 : ℝ), 0) from rfl,
      distance_horizontal 0 25 0 (by norm_num)]
    norm_num
  have heq : _compute_proximities [c5ic, c5cap] 20 DEFAULT_WEIGHT_MULTIPLIERS = [c5edge] := by
    rw [compute_two, edge_for_eval c5ic c5cap 20 DEFAULT_WEIGHT_MULTIPLIERS rfl rfl 25 hd
      (by rw [show _is_ic_cap_pair c5ic c5cap = true from rfl]; norm_num)]
    show [_] = [c5edge]
    rw [pair_weight_ic_cap_default c5ic c5cap rfl rfl]
    rw [show (_is_u_ref c5ic.reference || _is_u_ref c5cap.reference) = true from rfl]
    simp only [if_true, c5edge]
    rw [max_eq_left (by norm_num : ((20 : ℝ) - 25) / 20 ≤ 0), zero_mul]
    norm_num
    refine ⟨?_, ?_, ?_, ?_⟩ <;> rfl
  obtain ⟨e, he, hdm, hs⟩ := c5_extended_radius_zero_score.1 c5ic c5cap rfl rfl rfl rfl rfl rfl
  have hee : e = c5edge := by
    rw [he] at heq
    simpa using heq
  have hmem : c5edge ∈ _compute_proximities [c5ic, c5cap] 20 DEFAULT_WEIGHT_MULTIPLIERS := by
    rw [heq]
    exact List.mem_singleton_self c5edge
  refine ⟨heq, hee ▸ hs, hee ▸ hdm, ?_, ?_⟩
  · exact c5_extended_radius_zero_score.2.1 c5res1 c5res2 DEFAULT_WEIGHT_MULTIPLIERS
      (by decide) rfl rfl
  · exact c5_extended_radius_zero_score.2.2 [c5ic, c5cap] 20 DEFAULT_WEIGHT_MULTIPLIERS c5edge hmem

/-- Every visited pair consists of members of the component list. -/
theorem mem_pairsAfter :
    ∀ (l : List DistilledComponent) (p : DistilledComponent × DistilledComponent),
    p ∈ pairsAfter l → p.1 ∈ l ∧ p.2 ∈ l := by
  intro l
  induction l with
  | nil => intro p h; cases h
  | cons a rest ih =>
    intro p h
    unfold pairsAfter at h
    rw [List.mem_append] at h
    rcases h with h | h
    · rw [List.mem_map] at h
      obtain ⟨b, hb, rfl⟩ := h
      exact ⟨List.mem_cons_self a rest, List.mem_cons_of_mem a hb⟩
    · obtain ⟨h1, h2⟩ := ih p h
      exact ⟨List.mem_cons_of_mem a h1, List.mem_cons_of_mem a h2⟩

/-- Every emitted proximity edge comes from two members of the component list,
both of which pass the real-component filter, and carries their references. -/
theorem prox_provenance (comps : List DistilledComponent) (r : ℝ)
    (wm : String × String → Option ℝ) (e : ProximityEdge)
    (he : e ∈ _compute_proximities comps r wm) :
    ∃ a b, a ∈ comps ∧ b ∈ comps ∧
      _is_real_component a = true ∧ _is_real_component b = true ∧
      e.ref_a = a.reference ∧ e.ref_b = b.reference := by
  unfold _compute_proximities at he
  rw [List.mem_filterMap] at he
  obtain ⟨p, hp, hedge⟩ := he
  obtain ⟨h1, h2⟩ := mem_pairsAfter _ _ hp
  unfold _edge_for at hedge
  by_cases hr : (_is_real_component p.1 && _is_real_component p.2) = true
  · rw [if_pos hr] at hedge
    rw [Bool.and_eq_true] at hr
    simp only [] at hedge
    by_cases hgt : _distance p.1.position p.2.position
        > (if _is_ic_cap_pair p.1 p.2 then r * 1.5 else r)
    · rw [if_pos hgt] at hedge
      cases hedge
    · rw [if_neg hgt] at hedge
      have hrec := Option.some.inj hedge
      exact ⟨p.1, p.2, h1, h2, hr.1, hr.2, by rw [← hrec], by rw [← hrec]⟩
  · rw [if_neg hr] at hedge
    cases hedge

/-- A symbol that survives `_is_real_symbol` fails all four annotation tests. -/
theorem real_symbol_false_starts (comp : SchematicSymbol)
    (h : _is_real_symbol comp = true) :
    strStarts (strUpper comp.reference) "#" = false ∧
    strStarts (strUpper comp.reference) "NET-" = false ∧
    strStarts (strLower comp.lib_id) "power:" = false ∧
    strStarts (strLower comp.lib_id) "net:" = false := by
  unfold _is_real_symbol at h
  simp only [] at h
  split_ifs at h
  simp_all

/-- Every distilled component originates in a symbol that passed the
real-symbol filter, keeping its reference and library id. -/
theorem distill_components_mem (sch : Schematic) (ctxs : List (Schematic × String))
    (nets : List Net) (cfg : DistillationConfig) (lib : String → String → Option String)
    (c : DistilledComponent)
    (hc : c ∈ (distill_schematic sch ctxs nets cfg lib).components) :
    ∃ comp, _is_real_symbol comp = true ∧
      c.reference = comp.reference ∧ c.lib_id = comp.lib_id := by
  unfold distill_schematic at hc
  simp only [] at hc
  rw [List.mem_flatMap] at hc
  obtain ⟨sc, hsc, hc⟩ := hc
  rw [List.mem_map] at hc
  obtain ⟨comp, hcomp, rfl⟩ := hc
  rw [List.mem_filter] at hcomp
  exact ⟨comp, hcomp.2, rfl, rfl⟩

/-- Every emitted edge of the distilled output carries the references of two
distilled components of the same output. -/
theorem distill_prox_mem (sch : Schematic) (ctxs : List (Schematic × String))
    (nets : List Net) (cfg : DistillationConfig) (lib : String → String → Option String)
    (e : ProximityEdge)
    (he : e ∈ (distill_schematic sch ctxs nets cfg lib).proximities) :
    ∃ a b, a ∈ (distill_schematic sch ctxs nets cfg lib).components ∧
      b ∈ (distill_schematic sch ctxs nets cfg lib).components ∧
      e.ref_a = a.reference ∧ e.ref_b = b.reference := by
  unfold distill_schematic at he ⊢
  simp only [] at he ⊢
  rw [List.mem_flatMap] at he
  obtain ⟨k, hk, he⟩ := he
  obtain ⟨a, b, ha, hb, _, _, h1, h2⟩ := prox_provenance _ _ _ _ he
  rw [List.mem_filter] at ha hb
  exact ⟨a, b, ha.1, hb.1, h1, h2⟩

/-- C8: annotation symbols — reference starting with `#`, or library id
namespaced `power:`/`net:` — never appear among the distilled components, and
every proximity edge's two references are references of distilled components
(hence never of an annotation symbol), for every input and configuration. -/
theorem c8_annotation_symbols_excluded (sch : Schematic) (ctxs : List (Schematic × String))
    (nets : List Net) (cfg : DistillationConfig) (lib : String → String → Option String) :
    ((distill_schematic sch ctxs nets cfg lib).components.all (fun c =>
        !(strStarts (strUpper c.reference) "#") &&
        !(strStarts (strLower c.lib_id) "power:") &&
        !(strStarts (strLower c.lib_id) "net:"))) = true ∧
    ((distill_schematic sch ctxs nets cfg lib).proximities.all (fun e =>
        (distill_schematic sch ctxs nets cfg lib).components.any
          (fun c => c.reference == e.ref_a) &&
        (distill_schematic sch ctxs nets cfg lib).components.any
          (fun c => c.reference == e.ref_b))) = true := by
  constructor
  · rw [List.all_eq_true]
    intro c hc
    obtain ⟨comp, hreal, h1, h2⟩ := distill_components_mem sch ctxs nets cfg lib c hc
    obtain ⟨f1, f2, f3, f4⟩ := real_symbol_false_starts comp hreal
    rw [h1, h2, f1, f3, f4]
    rfl
  · rw [List.all_eq_true]
    intro e he
    obtain ⟨a, b, ha, hb, h1, h2⟩ := distill_prox_mem sch ctxs nets cfg lib e he
    rw [Bool.and_eq_true, List.any_eq_true, List.any_eq_true]
    exact ⟨⟨a, ha, by rw [h1]; exact beq_self_eq_true _⟩,
      ⟨b, hb, by rw [h2]; exact beq_self_eq_true _⟩⟩

/-- C9: beyond the documented annotation rule, any component whose upper-cased
reference starts with `NET-` (so `Net-...` and `net-...` as well) is silently
excluded from the distilled components and the proximity graph — including
physical parts such as `netComp1`. -/
theorem c9_net_prefixed_references_excluded (sch : Schematic)
    (ctxs : List (Schematic × String)) (nets : List Net) (cfg : DistillationConfig)
    (lib : String → String → Option String) :
    ((distill_schematic sch ctxs nets cfg lib).components.all (fun c =>
        !(strStarts (strUpper c.reference) "NET-"))) = true ∧
    ((distill_schematic sch ctxs nets cfg lib).proximities.all (fun e =>
        (distill_schematic sch ctxs nets cfg lib).components.any
          (fun c => c.reference == e.ref_a) &&
        (distill_schematic sch ctxs nets cfg lib).components.any
          (fun c => c.reference == e.ref_b))) = true ∧
    _is_real_symbol netComp1 = false ∧
    _is_real_symbol netComp2 = false ∧
    _is_real_component netComp3 = false := by
  refine ⟨?_, ?_, by decide, by decide, by decide⟩
  · rw [List.all_eq_true]
    intro c hc
    obtain ⟨comp, hreal, h1, h2⟩ := distill_components_mem sch ctxs nets cfg lib c hc
    obtain ⟨f1, f2, f3, f4⟩ := real_symbol_false_starts comp hreal
    rw [h1, f2]
    rfl
  · rw [List.all_eq_true]
    intro e he
    obtain ⟨a, b, ha, hb, h1, h2⟩ := distill_prox_mem sch ctxs nets cfg lib e he
    rw [Bool.and_eq_true, List.any_eq_true, List.any_eq_true]
    exact ⟨⟨a, ha, by rw [h1]; exact beq_self_eq_true _⟩,
      ⟨b, hb, by rw [h2]; exact beq_self_eq_true _⟩⟩

/-- C2: on the two-sheet scenario — root: `R1.1`–`VCC` power symbol, `R1.2`–local
label `DATA` wired to sheet pin `DATA`; child: `R2.1`–hierarchical label `DATA`,
`R2.2`–`GND` power symbol — hierarchical analysis yields exactly 3 nets named
`VCC`, `DATA`, `GND`; `VCC` holds (R1,1), `DATA` holds (R1,2) and (R2,1), `GND`
holds (R2,2); and neither R1 nor R2 has its two pins connected. -/
theorem c2_hierarchical_three_nets :
    caScenarioNets.length = 3 ∧
    caScenarioNets.map CANet.name = [some "VCC", some "DATA", some "GND"] ∧
    CAnetHas caScenarioNets "VCC" "R1" "1" = true ∧
    CAnetHas caScenarioNets "DATA" "R1" "2" = true ∧
    CAnetHas caScenarioNets "DATA" "R2" "1" = true ∧
    CAnetHas caScenarioNets "GND" "R2" "2" = true ∧
    CAare_connected caScenario 10 "R1" "2" "R2" "1" = true ∧
    CAare_connected caScenario 10 "R1" "1" "R1" "2" = false ∧
    CAare_connected caScenario 10 "R2" "1" "R2" "2" = false := by
  refine ⟨?_, ?_, ?_, ?_, ?_, ?_, ?_, ?_, ?_⟩ <;> decide
